import Mathlib

/-!
Shallow embedding of the `crossmath_layout` generation-and-validation engine
(`src/crossmath_layout`): the bit-grid data model, equation decomposition
(`equation_layout_builder.py`), cross-point classification
(`cross_point_analyzer.py`), boundary ring counting
(`circle_block_count_extractor.py`), layout validation (`layout_checker.py`),
placement-candidate generation (`placement_generator.py`) and the depth-first
layout enumeration (`layout_generator.py`).

Occupancy strings are modelled as `List Char` of `'0'`/`'1'` characters;
coordinates are pairs of integers, since candidate coordinates may be negative
before the bounds filters run.  Python calls that can raise (string indexing
out of range, `ValueError` in the ring counter) are modelled with `Option`.
The recursive search carries explicit fuel; a run whose `ok` flag is `true`
never exhausted fuel and never hit a modelled exception.
-/

namespace Crossmath

/-- models.Direction: orientation of an equation. -/
inductive Direction where
  | HORIZONTAL
  | VERTICAL
deriving DecidableEq, Repr

/-- models.Direction.reverse: swap the two directions. -/
def Direction.reverse : Direction → Direction
  | .HORIZONTAL => .VERTICAL
  | .VERTICAL => .HORIZONTAL

/-- models.RowCol: a (row, col) coordinate.  Integer-valued because candidate
coordinates are produced by subtracting offsets and may be negative before
bounds checks. -/
structure RowCol where
  row : Int
  col : Int
deriving DecidableEq, Repr

/-- models.Size: board height and width. -/
structure Size where
  height : Nat
  width : Nat
deriving DecidableEq, Repr

/-- models.Placement: a candidate equation's start coordinate and direction. -/
structure Placement where
  row : Int
  col : Int
  direction : Direction
deriving DecidableEq, Repr

/-- models.Layout: occupancy string plus declared height and width. -/
structure Layout where
  layout_info : List Char
  height : Nat
  width : Nat
deriving DecidableEq, Repr

/-- `layout_info[row * width + col]`: the character of a cell.  Every call
site guards the coordinate to be inside `[0,height) x [0,width)` first,
exactly as the Python code does, so the default value is never read in any
executed path. -/
def charAt (info : List Char) (w : Nat) (c : RowCol) : Char :=
  info.getD (c.row * (w : Int) + c.col).toNat '0'

/-- Python tuple comparison key `(row, col)`: lexicographic order. -/
def RowCol.leb (a b : RowCol) : Bool :=
  decide (a.row < b.row) || (decide (a.row = b.row) && decide (a.col ≤ b.col))

/-- `sorted(coords)` with the `(row, col)` lexicographic key. -/
def sortCoords (l : List RowCol) : List RowCol :=
  List.insertionSort (fun a b => RowCol.leb a b = true) l

/-- Row-major scan order of all cells of a `height x width` board
(`for row in range(height): for col in range(width)`). -/
def scan_coords (h w : Nat) : List RowCol :=
  (List.range h).flatMap (fun (r : Nat) => (List.range w).map (fun (c : Nat) => ⟨(r : Int), (c : Int)⟩))

namespace EquationLayoutBriefBuilder

/-- equation_layout_builder.is_valid_coord. -/
def is_valid_coord (c : RowCol) (s : Size) : Bool :=
  decide (0 ≤ c.row) && decide (c.row < (s.height : Int)) &&
  decide (0 ≤ c.col) && decide (c.col < (s.width : Int))

/-- equation_layout_builder.get_horizontal_range_coords: the `count` cells to
the right of `start`, or `none` when the start or end coordinate leaves the
board. -/
def get_horizontal_range_coords (start : RowCol) (count : Nat) (s : Size) :
    Option (List RowCol) :=
  let endc : RowCol := ⟨start.row, start.col + (count : Int) - 1⟩
  if is_valid_coord start s && is_valid_coord endc s then
    some ((List.range count).map fun (i : Nat) => ⟨start.row, start.col + (i : Int)⟩)
  else none

/-- equation_layout_builder.get_vertical_range_coords. -/
def get_vertical_range_coords (start : RowCol) (count : Nat) (s : Size) :
    Option (List RowCol) :=
  let endc : RowCol := ⟨start.row + (count : Int) - 1, start.col⟩
  if is_valid_coord start s && is_valid_coord endc s then
    some ((List.range count).map fun (i : Nat) => ⟨start.row + (i : Int), start.col⟩)
  else none

/-- The condition under which the local `update` helper of `build_by_layout`
records a run as an equation: a non-empty coordinate list whose cells are all
occupied. -/
def update_ok (info : List Char) (w : Nat) (coords : List RowCol) : Bool :=
  !coords.isEmpty && coords.all (fun c => charAt info w c == '1')

/-- One iteration of the `build_by_layout` scan at one start coordinate: try
to record a horizontal equation, then a vertical one, threading the id
counter.  The state is (next id, equations recorded so far). -/
def build_step (info : List Char) (s : Size) (eqLen : Nat)
    (st : Nat × List (Nat × List RowCol)) (coord : RowCol) :
    Nat × List (Nat × List RowCol) :=
  let st1 :=
    match get_horizontal_range_coords coord eqLen s with
    | some cs => if update_ok info s.width cs then (st.1 + 1, st.2 ++ [(st.1, cs)]) else st
    | none => st
  match get_vertical_range_coords coord eqLen s with
  | some cs => if update_ok info s.width cs then (st1.1 + 1, st1.2 ++ [(st1.1, cs)]) else st1
  | none => st1

/-- equation_layout_builder.build_by_layout: scan all coordinates in row-major
order and record every all-occupied in-bounds run of `eqLen` cells (horizontal
and vertical attempts are independent).  `none` models the Python `None`
result (width or height falsy, or occupancy length mismatch).  The result is
the `equation_id_to_coords` mapping as a list of (id, coordinates) pairs in
increasing id order; the coordinate lists are in ascending `(row, col)` order,
which is how Python's `sorted` presents the stored coordinate sets. -/
def build_by_layout (info : List Char) (w h : Nat) (eqLen : Nat) :
    Option (List (Nat × List RowCol)) :=
  if w = 0 ∨ h = 0 ∨ info.length ≠ w * h then none
  else some ((scan_coords h w).foldl (build_step info ⟨h, w⟩ eqLen) (1, [])).2

end EquationLayoutBriefBuilder

/-- cross_point_analyzer.CrossPointType. -/
inductive CrossPointType where
  | NONE
  | HEAD
  | MIDDLE
  | TAIL
deriving DecidableEq, Repr

/-- cross_point_analyzer.EquationCrossType. -/
inductive EquationCrossType where
  | NONE
  | HEAD_TO_HEAD
  | HEAD_TO_MIDDLE
  | HEAD_TO_TAIL
  | TAIL_TO_HEAD
  | TAIL_TO_MIDDLE
  | TAIL_TO_TAIL
  | MIDDLE_TO_HEAD
  | MIDDLE_TO_MIDDLE
  | MIDDLE_TO_TAIL
deriving DecidableEq, Repr

namespace CrossPointAnalyzer

/-- CrossPointAnalyzer._build_coord_to_equation_ids, read at one coordinate:
the ids of the equations owning it.  Since ids are recorded in increasing
order, this list is ascending. -/
def coord_to_equation_ids (eqs : List (Nat × List RowCol)) (c : RowCol) : List Nat :=
  (eqs.filter (fun e => decide (c ∈ e.2))).map (fun e => e.1)

/-- All coordinates covered by at least one equation, in first-touched order
(the key set of `coord_to_equation_ids`). -/
def all_equation_coords (eqs : List (Nat × List RowCol)) : List RowCol :=
  (eqs.flatMap (fun e => e.2)).dedup

/-- CrossPointAnalyzer.get_all_cross_points: the coordinates owned by more
than one equation. -/
def get_all_cross_points (eqs : List (Nat × List RowCol)) : List RowCol :=
  (all_equation_coords eqs).filter (fun c => decide (1 < (coord_to_equation_ids eqs c).length))

/-- Coordinates of one equation id (`self.equation_id_to_coords[equation_id]`;
the key is always present at the call sites). -/
def eq_coords (eqs : List (Nat × List RowCol)) (id : Nat) : List RowCol :=
  match eqs.find? (fun e => e.1 == id) with
  | some e => e.2
  | none => []

/-- CrossPointAnalyzer._get_point_type: position type of a coordinate inside
one equation.  Python's `sorted_coords.index(coord)` raises for a non-member;
all call sites pass a member, for which `findIdx` agrees with `index`. -/
def get_point_type (coords : List RowCol) (coord : RowCol) : CrossPointType :=
  let sorted := sortCoords coords
  let index := sorted.findIdx (fun x => decide (x = coord))
  if index = 0 then .HEAD
  else if index = sorted.length - 1 then .TAIL
  else if index = 2 then .MIDDLE
  else .NONE

/-- CrossPointAnalyzer._determine_cross_type: the 9-entry lookup table, with
`NONE` for every unlisted pair. -/
def determine_cross_type : CrossPointType → CrossPointType → EquationCrossType
  | .HEAD, .HEAD => .HEAD_TO_HEAD
  | .HEAD, .MIDDLE => .HEAD_TO_MIDDLE
  | .HEAD, .TAIL => .HEAD_TO_TAIL
  | .TAIL, .HEAD => .TAIL_TO_HEAD
  | .TAIL, .MIDDLE => .TAIL_TO_MIDDLE
  | .TAIL, .TAIL => .TAIL_TO_TAIL
  | .MIDDLE, .HEAD => .MIDDLE_TO_HEAD
  | .MIDDLE, .MIDDLE => .MIDDLE_TO_MIDDLE
  | .MIDDLE, .TAIL => .MIDDLE_TO_TAIL
  | _, _ => .NONE

/-- CrossPointAnalyzer.analyze_cross_point: `none` when the coordinate is not
owned by exactly two equations, otherwise the two position types (owning ids
taken in ascending order) and the resulting cross type. -/
def analyze_cross_point (eqs : List (Nat × List RowCol)) (coord : RowCol) :
    Option (CrossPointType × CrossPointType × EquationCrossType) :=
  let ids := coord_to_equation_ids eqs coord
  if ids.length = 2 then
    let sorted_ids := List.insertionSort (fun a b => a ≤ b) ids
    let id1 := sorted_ids.getD 0 0
    let id2 := sorted_ids.getD 1 0
    let t1 := get_point_type (eq_coords eqs id1) coord
    let t2 := get_point_type (eq_coords eqs id2) coord
    some (t1, t2, determine_cross_type t1 t2)
  else none

end CrossPointAnalyzer

/-- circle_block_count_extractor.OuterCircleBlockCount. -/
structure OuterCircleBlockCount where
  top : Nat
  bottom : Nat
  left : Nat
  right : Nat
deriving DecidableEq, Repr

/-- OuterCircleBlockCount.to_list. -/
def OuterCircleBlockCount.to_list (c : OuterCircleBlockCount) : List Nat :=
  [c.top, c.bottom, c.left, c.right]

namespace CircleBlockCountExtractor

/-- CircleBlockCountExtractor._extract_1_count: occupied-cell count along one
range; `none` models the raised `ValueError` when the range is out of bounds
or empty (`if not coords`). -/
def extract_1_count (info : List Char) (h w : Nat) (start : RowCol)
    (count : Nat) (d : Direction) : Option Nat :=
  let coords := match d with
    | .HORIZONTAL => EquationLayoutBriefBuilder.get_horizontal_range_coords start count ⟨h, w⟩
    | .VERTICAL => EquationLayoutBriefBuilder.get_vertical_range_coords start count ⟨h, w⟩
  match coords with
  | none => none
  | some [] => none
  | some cs => some (cs.countP (fun c => charAt info w c == '1'))

/-- CircleBlockCountExtractor.cal_outer_circle_block_count: occupied-cell
counts along the four outer edges; `none` when any edge extraction raises. -/
def cal_outer_circle_block_count (info : List Char) (h w : Nat) :
    Option OuterCircleBlockCount :=
  match extract_1_count info h w ⟨0, 0⟩ w .HORIZONTAL,
        extract_1_count info h w ⟨(h : Int) - 1, 0⟩ w .HORIZONTAL,
        extract_1_count info h w ⟨0, 0⟩ h .VERTICAL,
        extract_1_count info h w ⟨0, (w : Int) - 1⟩ h .VERTICAL with
  | some t, some b, some l, some r => some ⟨t, b, l, r⟩
  | _, _, _, _ => none

end CircleBlockCountExtractor

/-- layout_checker.LayoutResult. -/
structure LayoutResult where
  is_valid : Bool
  error_message : String
  formula_count : Nat
deriving DecidableEq, Repr

namespace LayoutChecker

/-- LayoutChecker._find_all_one_count: `layout_info.count('1')`. -/
def find_all_one_count (info : List Char) : Nat := info.count '1'

/-- LayoutChecker._check_only_0_and_1. -/
def check_only_0_and_1 (info : List Char) : Bool :=
  info.all (fun v => v == '0' || v == '1')

/-- Matrix scan for the first occupied cell, row-major
(`next(((i, j) ...))` in `_find_and_count_connected_ones`). -/
def find_first_one (info : List Char) (h w : Nat) : Option RowCol :=
  (scan_coords h w).find? (fun c => charAt info w c == '1')

/-- One BFS dequeue step of `_find_and_count_connected_ones`: visit the head
of the queue and push its unvisited occupied 4-neighbours.  `fuel` bounds the
number of dequeues; `h * w + 1` always suffices because every enqueued cell is
marked visited once. -/
def bfs_loop (info : List Char) (h w : Nat) :
    Nat → List RowCol → List RowCol → Nat → Nat
  | 0, _, _, cnt => cnt
  | _ + 1, [], _, cnt => cnt
  | fuel + 1, cur :: rest, visited, cnt =>
    let step := fun (st : List RowCol × List RowCol) (d : Int × Int) =>
      let n : RowCol := ⟨cur.row + d.1, cur.col + d.2⟩
      if decide (0 ≤ n.row) && decide (n.row < (h : Int)) &&
          decide (0 ≤ n.col) && decide (n.col < (w : Int)) &&
          !(st.2.contains n) && (charAt info w n == '1') then
        (st.1 ++ [n], n :: st.2)
      else st
    let res := [((-1 : Int), (0 : Int)), (1, 0), (0, -1), (0, 1)].foldl step (rest, visited)
    bfs_loop info h w fuel res.1 res.2 (cnt + 1)

/-- LayoutChecker._find_and_count_connected_ones: size of the 4-connected
component of the first occupied cell; `none` models the raised `ValueError`
(length mismatch or a character other than 0/1). -/
def find_and_count_connected_ones (info : List Char) (w h : Nat) : Option Nat :=
  if info.length ≠ w * h then none
  else if ¬ check_only_0_and_1 info then none
  else
    match find_first_one info h w with
    | none => some 0
    | some first => some (bfs_loop info h w (h * w + 1) [first] [first] 0)

/-- LayoutChecker._check_connected: the component of the first occupied cell
must contain every occupied cell; an exception yields `False`. -/
def check_connected (info : List Char) (w h : Nat) : Bool :=
  match find_and_count_connected_ones info w h with
  | none => false
  | some n => n == find_all_one_count info

/-- LayoutChecker._check_cross_point: optionally require at least one cross
point, and require every cross point to classify to a two-owner, non-NONE
cross type. -/
def check_cross_point (eqs : List (Nat × List RowCol)) (check_none_cross_point : Bool) : Bool :=
  let all_cross_points := CrossPointAnalyzer.get_all_cross_points eqs
  if all_cross_points.length = 0 && check_none_cross_point then false
  else all_cross_points.all (fun c =>
    match CrossPointAnalyzer.analyze_cross_point eqs c with
    | none => false
    | some r => !(r.2.2 == EquationCrossType.NONE))

/-- LayoutChecker._check_puzzle_shape: the union of all equation coordinates
must have the same size as the occupied-cell count. -/
def check_puzzle_shape (eqs : List (Nat × List RowCol)) (info : List Char) : Bool :=
  (CrossPointAnalyzer.all_equation_coords eqs).length == find_all_one_count info

/-- LayoutChecker._check_size: all four outer-edge counts must be non-zero;
`none` propagates the ring counter's exception. -/
def check_size (info : List Char) (h w : Nat) : Option Bool :=
  match CircleBlockCountExtractor.cal_outer_circle_block_count info h w with
  | none => none
  | some c => some (!(c.top == 0 || c.bottom == 0 || c.left == 0 || c.right == 0))

/-- LayoutChecker.setup followed by LayoutChecker.check: `none` when setup
fails (the builder returns `None`) or when the boundary check raises; the
checker's builder always uses equation length 5.  Short-circuits in source
order: connectivity, cross points, shape, boundary. -/
def check (info : List Char) (w h : Nat) : Option LayoutResult :=
  match EquationLayoutBriefBuilder.build_by_layout info w h 5 with
  | none => none
  | some eqs =>
    if ¬ check_connected info w h then some ⟨false, "面板不连通", 0⟩
    else if ¬ check_cross_point eqs true then some ⟨false, "面板有非法交叉点", 0⟩
    else if ¬ check_puzzle_shape eqs info then some ⟨false, "盘面形状不合法", 0⟩
    else match check_size info h w with
      | none => none
      | some false => some ⟨false, "盘面尺寸不合法, 最外围有不存在格子", 0⟩
      | some true => some ⟨true, "", eqs.length⟩

end LayoutChecker

namespace PlacementGenerator

/-- PlacementGenerator.is_valid_row_col. -/
def is_valid_row_col (h w : Nat) (c : RowCol) : Bool :=
  decide (0 ≤ c.row) && decide (c.row < (h : Int)) &&
  decide (0 ≤ c.col) && decide (c.col < (w : Int))

/-- PlacementGenerator.get_end_rowcol: last cell of a candidate equation. -/
def get_end_rowcol (eqLen : Nat) (p : Placement) : RowCol :=
  match p.direction with
  | .HORIZONTAL => ⟨p.row, p.col + (eqLen : Int) - 1⟩
  | .VERTICAL => ⟨p.row + (eqLen : Int) - 1, p.col⟩

/-- PlacementGenerator.check_first_and_last_edge: the cell right before the
start and right after the end (along the placement's direction) must be empty
or off-grid.  The Python board holds ints from a 0/1 string, so `!= 0` is
`== '1'`. -/
def check_first_and_last_edge (info : List Char) (h w : Nat)
    (s e : RowCol) (d : Direction) : Bool :=
  match d with
  | .HORIZONTAL =>
    (s.col == 0 || !(charAt info w ⟨s.row, s.col - 1⟩ == '1')) &&
    (e.col == (w : Int) - 1 || !(charAt info w ⟨e.row, e.col + 1⟩ == '1'))
  | .VERTICAL =>
    (s.row == 0 || !(charAt info w ⟨s.row - 1, s.col⟩ == '1')) &&
    (e.row == (h : Int) - 1 || !(charAt info w ⟨e.row + 1, e.col⟩ == '1'))

/-- The i-th cell of a placement's span (`cur_rowcol` in
PlacementGenerator.check_cross_point: start plus `i` times the direction's
offset). -/
def span_cell (p : Placement) (i : Nat) : RowCol :=
  let offset : Int × Int := match p.direction with
    | .HORIZONTAL => (0, 1)
    | .VERTICAL => (1, 0)
  ⟨p.row + (i : Int) * offset.1, p.col + (i : Int) * offset.2⟩

/-- One iteration of the cross-point collection loop of
PlacementGenerator.check_cross_point: fail on an out-of-bounds cell, collect
an occupied cell. -/
def collect_step (info : List Char) (h w : Nat) (p : Placement)
    (acc : Option (List RowCol)) (i : Nat) : Option (List RowCol) :=
  match acc with
  | none => none
  | some l =>
    let cur := span_cell p i
    if ¬ is_valid_row_col h w cur then none
    else if charAt info w cur == '1' then some (l ++ [cur]) else some l

/-- The cross-point collection loop of PlacementGenerator.check_cross_point:
walk the `eqLen` cells of the placement, fail (`none`) on the first
out-of-bounds cell, and collect the already-occupied cells. -/
def collect_cross_points (info : List Char) (h w eqLen : Nat) (p : Placement) :
    Option (List RowCol) :=
  (List.range eqLen).foldl (collect_step info h w p) (some [])

/-- PlacementGenerator.check_cross_point: at least 1 and at most 3 occupied
cells along the span, and every occupied cell's offset from the start must be
one of the three legal crossing offsets. -/
def check_cross_point (info : List Char) (h w eqLen : Nat) (p : Placement) : Bool :=
  match collect_cross_points info h w eqLen p with
  | none => false
  | some cps =>
    let cross_count := cps.length
    if cross_count < 1 || cross_count > 3 then false
    else
      let real_offsets : List (Int × Int) :=
        cps.map (fun c => (c.row - p.row, c.col - p.col))
      let valid_offsets : List (Int × Int) := match p.direction with
        | .HORIZONTAL => [(0, 0), (0, 2), (0, 4)]
        | .VERTICAL => [(0, 0), (2, 0), (4, 0)]
      (real_offsets.filter (fun o => decide (o ∉ valid_offsets))).isEmpty

/-- PlacementGenerator.is_valid_placement: in-bounds start and end, edge
isolation, and legal cross points. -/
def is_valid_placement (info : List Char) (h w eqLen : Nat) (p : Placement) : Bool :=
  let s : RowCol := ⟨p.row, p.col⟩
  let e := get_end_rowcol eqLen p
  is_valid_row_col h w s && is_valid_row_col h w e &&
  check_first_and_last_edge info h w s e p.direction &&
  check_cross_point info h w eqLen p

/-- PlacementGenerator.get_equation_possible_placements: up to 9 candidate
start coordinates at offsets 0, ±2, ±4 from an existing equation's start, in
the opposite direction, restricted to in-bounds starts. -/
def get_equation_possible_placements (h w : Nat) (start : RowCol) (d : Direction) :
    List Placement :=
  let offsets : List (Int × Int) := match d with
    | .HORIZONTAL =>
      [(0, 0), (0, 2), (0, 4), (-2, 0), (-2, 2), (-2, 4), (-4, 0), (-4, 2), (-4, 4)]
    | .VERTICAL =>
      [(0, 0), (0, -2), (0, -4), (2, 0), (2, -2), (2, -4), (4, 0), (4, -2), (4, -4)]
  ((offsets.map (fun o => RowCol.mk (start.row + o.1) (start.col + o.2))).filter
    (is_valid_row_col h w)).map (fun c => ⟨c.row, c.col, d.reverse⟩)

/-- The local get_equation_direction helper of
get_all_equation_start_rowcol_and_direction: first two sorted coordinates
share a row (horizontal) or a column (vertical); equations always satisfy one
of the two, so the Python error branch is unreachable. -/
def get_equation_direction (coords : List RowCol) : Direction :=
  if (coords.getD 0 ⟨0, 0⟩).row = (coords.getD 1 ⟨0, 0⟩).row then .HORIZONTAL
  else .VERTICAL

/-- PlacementGenerator.get_all_equation_start_rowcol_and_direction: sorted
first coordinate and direction of every current equation, in id order. -/
def get_all_equation_start_rowcol_and_direction (eqs : List (Nat × List RowCol)) :
    List (RowCol × Direction) :=
  eqs.map (fun e =>
    let sorted := sortCoords e.2
    (sorted.getD 0 ⟨0, 0⟩, get_equation_direction sorted))

/-- PlacementGenerator.generate_placement: all candidates from all current
equations that pass `is_valid_placement`, in source iteration order. -/
def generate_placement (info : List Char) (h w eqLen : Nat)
    (eqs : List (Nat × List RowCol)) : List Placement :=
  (get_all_equation_start_rowcol_and_direction eqs).flatMap (fun sd =>
    (get_equation_possible_placements h w sd.1 sd.2).filter
      (is_valid_placement info h w eqLen))

end PlacementGenerator

namespace LayoutGenerator

/-- The `set_one_points` list of LayoutGenerator.apply_placement. -/
def set_one_points (eqLen : Nat) (p : Placement) : List (Int × Int) :=
  let offset : Int × Int := match p.direction with
    | .HORIZONTAL => (0, 1)
    | .VERTICAL => (1, 0)
  (List.range eqLen).map (fun (i : Nat) => (p.row + (i : Int) * offset.1, p.col + (i : Int) * offset.2))

/-- LayoutGenerator.apply_placement: write `'1'` at `row * width + col` for
each of the placement's cells.  Python raises IndexError when an index is at
or beyond the string length, modelled as `none`; negative flat indices never
occur at any call site (seeds have non-negative coordinates and searched
placements are bounds-checked). -/
def apply_placement (l : Layout) (p : Placement) (eqLen : Nat) : Option Layout :=
  let idxs := (set_one_points eqLen p).map (fun q => q.1 * (l.width : Int) + q.2)
  if idxs.all (fun i => decide (0 ≤ i) && decide (i < (l.layout_info.length : Int))) then
    some ⟨idxs.foldl (fun s i => s.set i.toNat '1') l.layout_info, l.height, l.width⟩
  else none

/-- LayoutGenerator.is_valid_layout: all four outer-edge ring counts are
positive; `none` propagates the ring counter's exception. -/
def is_valid_layout (l : Layout) : Option Bool :=
  (CircleBlockCountExtractor.cal_outer_circle_block_count l.layout_info l.height l.width).map
    (fun c => c.to_list.all (fun x => decide (0 < x)))

/-- Result of a (partial) depth-first enumeration: the layouts emitted in
order, the visited set (most recent first), the maximal call nesting depth
reached, and whether the run completed without a modelled exception or fuel
exhaustion. -/
structure DfsOut where
  emitted : List Layout
  seen : List (List Char)
  max_depth : Nat
  ok : Bool
deriving DecidableEq, Repr

/-- LayoutGenerator.iter_dfs_generate_layout: prune on the shared visited set,
record the state, emit it when `is_valid_layout` holds, set up the placement
generator (which fails only on a malformed layout), then recurse into each
generated placement's child in order.  `depth` is the call nesting level (1
for a seed call); `fuel` bounds the recursion depth and is threaded so that a
completed run (`ok = true`) is fuel-independent. -/
def iter_dfs (eqLen : Nat) : Nat → Nat → Layout → List (List Char) → DfsOut
  | 0, depth, _, seen => ⟨[], seen, depth, false⟩
  | fuel + 1, depth, l, seen =>
    if l.layout_info ∈ seen then ⟨[], seen, depth, true⟩
    else
      let seen1 := l.layout_info :: seen
      match is_valid_layout l with
      | none => ⟨[], seen1, depth, false⟩
      | some b =>
        let em := if b then [l] else []
        match EquationLayoutBriefBuilder.build_by_layout l.layout_info l.width l.height eqLen with
        | none => ⟨em, seen1, depth, true⟩
        | some eqs =>
          let ps := PlacementGenerator.generate_placement l.layout_info l.height l.width eqLen eqs
          ps.foldl
            (fun acc p =>
              if acc.ok then
                match apply_placement l p eqLen with
                | none => ⟨acc.emitted, acc.seen, acc.max_depth, false⟩
                | some child =>
                  let r := iter_dfs eqLen fuel (depth + 1) child acc.seen
                  ⟨acc.emitted ++ r.emitted, r.seen, max acc.max_depth r.max_depth, r.ok⟩
              else acc)
            ⟨em, seen1, depth, true⟩

/-- LayoutGenerator.get_init_placements: `range(0, stop, 2)` as a list of even
integers below `stop`. -/
def range_step2 (stop : Int) : List Int :=
  (List.range (((max stop 0).toNat + 1) / 2)).map (fun (i : Nat) => ((2 * i : Nat) : Int))

/-- LayoutGenerator.get_init_placements: horizontal seeds on row 0 at even
columns up to `width - equation_length`, then vertical seeds on row 0 at every
even column. -/
def get_init_placements (size : Size) (eqLen : Nat) : List Placement :=
  (range_step2 ((size.width : Int) - (eqLen : Int) + 1)).map
      (fun c => ⟨0, c, Direction.HORIZONTAL⟩)
    ++ (range_step2 (size.width : Int)).map (fun c => ⟨0, c, Direction.VERTICAL⟩)

/-- The seed loop of LayoutGenerator.generate_layout: apply each seed to an
all-empty layout and run the depth-first expansion with the shared visited
set; a modelled exception stops the whole run after the layouts already
emitted. -/
def run_seeds (size : Size) (eqLen fuel : Nat) :
    List Placement → List (List Char) → DfsOut
  | [], seen => ⟨[], seen, 0, true⟩
  | p :: ps, seen =>
    let empty : Layout :=
      ⟨List.replicate (size.height * size.width) '0', size.height, size.width⟩
    match apply_placement empty p eqLen with
    | none => ⟨[], seen, 0, false⟩
    | some l =>
      let r := iter_dfs eqLen fuel 1 l seen
      if r.ok then
        let rest := run_seeds size eqLen fuel ps r.seen
        ⟨r.emitted ++ rest.emitted, rest.seen, max r.max_depth rest.max_depth, rest.ok⟩
      else ⟨r.emitted, r.seen, r.max_depth, false⟩

/-- LayoutGenerator.generate_layout: run all seeds for a size with one shared
visited set, starting from an empty one. -/
def generate_layout (size : Size) (eqLen fuel : Nat) : DfsOut :=
  run_seeds size eqLen fuel (get_init_placements size eqLen) []

end LayoutGenerator

/-! ### Concrete inputs used by the claims -/

/-- The 11x9 occupancy string of the validator scenario (also the
`layout_checker.py` main-block test string). -/
def c2_info : List Char :=
  "111110000101010000101011111101010000111110000000000000000000000000000000000000000000000000000000000".data

/-- An all-empty 5x5 occupancy string (zero occupied cells). -/
def zeros55 : List Char := List.replicate 25 '0'

/-- The generator run for Size(height=1, width=5), fuel 15. -/
def gen15 : LayoutGenerator.DfsOut := LayoutGenerator.generate_layout ⟨1, 5⟩ 5 15

/-- The generator run for Size(height=5, width=5), fuel 15 (the search never
nests deeper than 7 calls on a 5x5 board, so the run completes: its `ok` flag
is proved `true` below). -/
def gen55 : LayoutGenerator.DfsOut := LayoutGenerator.generate_layout ⟨5, 5⟩ 5 15

/-- The single-equation 1x5 board emitted by the Size(1,5) run. -/
def layout_11111 : Layout := ⟨"11111".data, 1, 5⟩

/-- A straight horizontal 7-cell equation on row 0 (columns 0..6), used to
probe the point-type classifier at equation length 7. -/
def coords7 : List RowCol :=
  [⟨0, 0⟩, ⟨0, 1⟩, ⟨0, 2⟩, ⟨0, 3⟩, ⟨0, 4⟩, ⟨0, 5⟩, ⟨0, 6⟩]

/-- A 5x5 board whose only occupied cells sit on row 0. -/
def row0_55 : List Char := "1111100000000000000000000".data

/-- A 5x5 board with a single occupied cell at (0, 1). -/
def single01_55 : List Char := "0100000000000000000000000".data

/-- A 1x7 board that is one straight run of 7 occupied cells. -/
def run17 : List Char := "1111111".data

/-- The horizontal 5-cell window of row 0 starting at column `c`. -/
def win17 (c : Nat) : List RowCol :=
  (List.range 5).map (fun (i : Nat) => ⟨0, ((c + i : Nat) : Int)⟩)

/-- A 7x7 board shaped like a plus sign: row 3 and column 3 fully occupied
(two length-7 equations crossing at their exact middles). -/
def cross7_info : List Char :=
  "0001000000100000010001111111000100000010000001000".data

/-- The equation decomposition of `cross7_info` at equation length 7. -/
def cross7_eqs : List (Nat × List RowCol) :=
  (EquationLayoutBriefBuilder.build_by_layout cross7_info 7 7 7).getD []

/-! ### Statement vocabulary for the claims -/

/-- The local indices (0 ‥ eqLen−1) of a placement's span whose cells are
already occupied. -/
def occupied_span_indices (info : List Char) (w eqLen : Nat) (p : Placement) :
    List Nat :=
  (List.range eqLen).filter (fun i => charAt info w (PlacementGenerator.span_cell p i) == '1')

/-- The two candidate windows that `build_by_layout` tries at one start
coordinate, keeping those recorded as equations (in bounds and fully
occupied). -/
def window_cands (info : List Char) (s : Size) (eqLen : Nat) (coord : RowCol) :
    List (List RowCol) :=
  (match EquationLayoutBriefBuilder.get_horizontal_range_coords coord eqLen s with
   | some l => if EquationLayoutBriefBuilder.update_ok info s.width l then [l] else []
   | none => []) ++
  (match EquationLayoutBriefBuilder.get_vertical_range_coords coord eqLen s with
   | some l => if EquationLayoutBriefBuilder.update_ok info s.width l then [l] else []
   | none => [])

/-- Invariant of one `iter_dfs` call relative to the layout it expands and
the visited set it receives: the visited set only grows, the emitted layouts
have pairwise distinct occupancy strings, each emitted occupancy string is
new and ends up visited, and every emitted layout passed the boundary gate
and has the dimensions of the expanded layout. -/
def DfsInv (l : Layout) (seen : List (List Char)) (r : LayoutGenerator.DfsOut) : Prop :=
  (∀ x ∈ seen, x ∈ r.seen) ∧
  (r.emitted.map Layout.layout_info).Nodup ∧
  (∀ g ∈ r.emitted, g.layout_info ∉ seen ∧ g.layout_info ∈ r.seen) ∧
  (∀ g ∈ r.emitted, LayoutGenerator.is_valid_layout g = some true ∧
    g.height = l.height ∧ g.width = l.width ∧
    g.layout_info.length = l.layout_info.length)

/-- Invariant of the seed loop: as `DfsInv`, with the emitted layouts carrying
the requested size and an occupancy string of length height times width. -/
def SeedsInv (size : Size) (seen : List (List Char)) (r : LayoutGenerator.DfsOut) : Prop :=
  (∀ x ∈ seen, x ∈ r.seen) ∧
  (r.emitted.map Layout.layout_info).Nodup ∧
  (∀ g ∈ r.emitted, g.layout_info ∉ seen ∧ g.layout_info ∈ r.seen) ∧
  (∀ g ∈ r.emitted, LayoutGenerator.is_valid_layout g = some true ∧
    g.height = size.height ∧ g.width = size.width ∧
    g.layout_info.length = size.height * size.width)

/-! ### C2: the concrete 11x9 validation scenario -/

/-- C2 is false on the code: validating the given occupancy string with
height 11 and width 9 does not return a valid verdict — the boundary check
fails because the bottom outer edge (row 10) has zero occupied cells, and
one outer-edge ring count is 0, not strictly positive. -/
theorem c2_counterexample :
    LayoutChecker.check c2_info 9 11 =
      some ⟨false, "盘面尺寸不合法, 最外围有不存在格子", 0⟩ ∧
    CircleBlockCountExtractor.cal_outer_circle_block_count c2_info 11 9 =
      some ⟨5, 0, 5, 1⟩ := by decide

/-- C2 amended: validating the given occupancy string with height 11 and
width 9 returns an invalid verdict with the boundary diagnostic; the
connectivity check (and, by the validator's short-circuit order, the
cross-point and shape checks) passes, but the bottom outer-edge ring count is
0 (top 5, left 5, right 1), so not every outer-edge count is positive. -/
theorem c2_amended_verdict :
    LayoutChecker.check c2_info 9 11 =
      some ⟨false, "盘面尺寸不合法, 最外围有不存在格子", 0⟩ ∧
    LayoutChecker.check_connected c2_info 9 11 = true ∧
    CircleBlockCountExtractor.cal_outer_circle_block_count c2_info 11 9 =
      some ⟨5, 0, 5, 1⟩ := by decide

/-! ### C3: the empty grid -/

/-- C3 is false on the code: on a grid with zero occupied cells the
connectivity check succeeds (the BFS count 0 equals the occupied count 0),
and the invalid verdict does not carry the not-connected diagnostic. -/
theorem c3_counterexample :
    LayoutChecker.check_connected zeros55 5 5 = true ∧
    LayoutChecker.check zeros55 5 5 ≠ some ⟨false, "面板不连通", 0⟩ := by decide

/-- C3 amended: for a grid with zero occupied cells the connectivity check
passes (no first cell exists, so the component count is 0, equal to the total
occupied count), and `check` still returns an invalid verdict, but with the
illegal-cross-point diagnostic of step 2, not the not-connected one. -/
theorem c3_amended_empty_grid :
    LayoutChecker.check_connected zeros55 5 5 = true ∧
    LayoutChecker.find_and_count_connected_ones zeros55 5 5 = some 0 ∧
    LayoutChecker.check zeros55 5 5 = some ⟨false, "面板有非法交叉点", 0⟩ := by decide

/-! ### C4: malformed sizes -/

/-- C4 is false on the code: for the malformed size height 1, width 5 (height
smaller than the equation length) the search is not rejected up front — it
starts, emits a grid, and then aborts mid-search with a modelled index error
(`ok = false`) while applying a seed placement. -/
theorem c4_counterexample :
    gen15.ok = false ∧ gen15.emitted ≠ [] := by decide

/-- C4 amended: `generate_layout` performs no up-front size validation.  For
the malformed size Size(1, 5) it emits the single-equation grid of the first
seed and then aborts mid-search: applying the vertical seed placement at
(0, 0) writes outside the occupancy string (Python IndexError, modelled as
`none`). -/
theorem c4_amended_malformed_size :
    gen15.emitted = [layout_11111] ∧ gen15.ok = false ∧
    LayoutGenerator.apply_placement ⟨List.replicate 5 '0', 1, 5⟩
      ⟨0, 0, Direction.VERTICAL⟩ 5 = none := by decide

/-! ### C1: emitted grids versus the full validator -/

/-- C1 is false on the code: for the positive size height 1, width 5, the
grid "11111" is yielded by the generator, yet the full validator rejects it
(it has no cross point), so not every yielded grid validates. -/
theorem c1_counterexample :
    (0 < (1 : Nat) ∧ 0 < (5 : Nat)) ∧
    gen15.emitted = [layout_11111] ∧
    LayoutChecker.check layout_11111.layout_info 5 1 =
      some ⟨false, "面板有非法交叉点", 0⟩ := by decide

/-! ### The full 5x5 enumeration, evaluated once -/

set_option maxHeartbeats 4000000 in
/-- Full evaluation of the 5x5 run: 49 layouts are emitted, the deepest call
nesting is 6, and the run completes without fuel exhaustion or a modelled
exception. -/
theorem gen55_eval :
    gen55.emitted.length = 49 ∧ gen55.max_depth = 6 ∧ gen55.ok = true := by
  decide

/-! ### C9: the 5x5 reference count -/

/-- C9 is false on the code: the Size(5,5) run with equation length 5 does
not yield 40 grids. -/
theorem c9_counterexample : gen55.emitted.length ≠ 40 := by
  rw [gen55_eval.1]; decide

/-! ### C5: search depth on the 5x5 run -/

/-- C5's quantitative bound is false on the code: the Size(5,5) run reaches a
call nesting depth of 6, which exceeds (height x width) / equation_length =
25 / 5 = 5. -/
theorem c5_counterexample :
    gen55.max_depth = 6 ∧ ¬ (gen55.max_depth ≤ 5 * 5 / 5) := by
  refine ⟨gen55_eval.2.1, ?_⟩
  rw [gen55_eval.2.1]; decide

/-! ### General lemmas: point types, cross-point rule, decomposer, search invariants -/

/-- C7 amended: the classifier's position type is determined by the
coordinate's index in the equation's sorted coordinate order as follows:
HEAD exactly at index 0; TAIL exactly at index length−1 (when that is not
index 0); MIDDLE exactly at the hardcoded index 2 (when interior); NONE at
every other index. -/
theorem c7_amended_point_type (coords : List RowCol) (coord : RowCol) :
    (CrossPointAnalyzer.get_point_type coords coord = .HEAD ↔
      (sortCoords coords).findIdx (fun x => decide (x = coord)) = 0) ∧
    (CrossPointAnalyzer.get_point_type coords coord = .TAIL ↔
      ((sortCoords coords).findIdx (fun x => decide (x = coord)) ≠ 0 ∧
       (sortCoords coords).findIdx (fun x => decide (x = coord)) =
         (sortCoords coords).length - 1)) ∧
    (CrossPointAnalyzer.get_point_type coords coord = .MIDDLE ↔
      ((sortCoords coords).findIdx (fun x => decide (x = coord)) ≠ 0 ∧
       (sortCoords coords).findIdx (fun x => decide (x = coord)) ≠
         (sortCoords coords).length - 1 ∧
       (sortCoords coords).findIdx (fun x => decide (x = coord)) = 2)) ∧
    (CrossPointAnalyzer.get_point_type coords coord = .NONE ↔
      ((sortCoords coords).findIdx (fun x => decide (x = coord)) ≠ 0 ∧
       (sortCoords coords).findIdx (fun x => decide (x = coord)) ≠
         (sortCoords coords).length - 1 ∧
       (sortCoords coords).findIdx (fun x => decide (x = coord)) ≠ 2)) := by
  unfold CrossPointAnalyzer.get_point_type
  dsimp only
  split_ifs with h1 h2 h3 <;> simp_all

/-- C7 is false on the code: on the plus-shaped 7x7 board with equation
length 7, the centre (3,3) is owned by exactly two equations, each of length
7 (odd), and sits at sorted index 3 = (7−1)/2, the exact middle — yet the
classifier assigns NONE, not MIDDLE, and the cross point classifies to the
NONE cross type. -/
theorem c7_counterexample :
    (CrossPointAnalyzer.coord_to_equation_ids cross7_eqs ⟨3, 3⟩).length = 2 ∧
    (CrossPointAnalyzer.eq_coords cross7_eqs 1).length = 7 ∧
    (sortCoords (CrossPointAnalyzer.eq_coords cross7_eqs 1)).findIdx
      (fun x => decide (x = (⟨3, 3⟩ : RowCol))) = (7 - 1) / 2 ∧
    CrossPointAnalyzer.get_point_type (CrossPointAnalyzer.eq_coords cross7_eqs 1) ⟨3, 3⟩ ≠
      CrossPointType.MIDDLE ∧
    CrossPointAnalyzer.analyze_cross_point cross7_eqs ⟨3, 3⟩ =
      some (.NONE, .NONE, .NONE) := by decide

theorem collect_fold_none (info : List Char) (h w : Nat) (p : Placement) :
    ∀ xs : List Nat, xs.foldl (PlacementGenerator.collect_step info h w p) none = none := by
  intro xs
  induction xs with
  | nil => rfl
  | cons a xs ih => simpa [PlacementGenerator.collect_step] using ih

theorem collect_fold_spec (info : List Char) (h w : Nat) (p : Placement) :
    ∀ (xs : List Nat) (acc out : List RowCol),
      xs.foldl (PlacementGenerator.collect_step info h w p) (some acc) = some out →
      out = acc ++
        (xs.filter (fun i => charAt info w (PlacementGenerator.span_cell p i) == '1')).map
          (PlacementGenerator.span_cell p) ∧
      ∀ i ∈ xs, PlacementGenerator.is_valid_row_col h w (PlacementGenerator.span_cell p i) = true := by
  intro xs
  induction xs with
  | nil =>
    intro acc out hout
    simp only [List.foldl_nil, Option.some.injEq] at hout
    subst hout
    simp
  | cons a xs ih =>
    intro acc out hout
    rw [List.foldl_cons] at hout
    by_cases hv : PlacementGenerator.is_valid_row_col h w (PlacementGenerator.span_cell p a) = true
    · by_cases hc : (charAt info w (PlacementGenerator.span_cell p a) == '1') = true
      · have hstep : PlacementGenerator.collect_step info h w p (some acc) a =
            some (acc ++ [PlacementGenerator.span_cell p a]) := by
          simp [PlacementGenerator.collect_step, hv, hc]
        rw [hstep] at hout
        obtain ⟨h1, h2⟩ := ih _ _ hout
        refine ⟨?_, ?_⟩
        · rw [h1]
          simp [List.filter_cons, hc]
        · intro i hi
          rcases List.mem_cons.mp hi with rfl | hi
          · exact hv
          · exact h2 i hi
      · have hstep : PlacementGenerator.collect_step info h w p (some acc) a = some acc := by
          simp [PlacementGenerator.collect_step, hv, hc]
        rw [hstep] at hout
        obtain ⟨h1, h2⟩ := ih _ _ hout
        refine ⟨?_, ?_⟩
        · rw [h1]
          simp [List.filter_cons, hc]
        · intro i hi
          rcases List.mem_cons.mp hi with rfl | hi
          · exact hv
          · exact h2 i hi
    · have hstep : PlacementGenerator.collect_step info h w p (some acc) a = none := by
        simp [PlacementGenerator.collect_step, hv]
      rw [hstep, collect_fold_none] at hout
      exact absurd hout (by simp)

theorem check_cross_point_spec (info : List Char) (h w eqLen : Nat) (p : Placement)
    (hcp : PlacementGenerator.check_cross_point info h w eqLen p = true) :
    1 ≤ (occupied_span_indices info w eqLen p).length ∧
    (occupied_span_indices info w eqLen p).length ≤ 3 ∧
    (∀ i ∈ occupied_span_indices info w eqLen p, i = 0 ∨ i = 2 ∨ i = 4) ∧
    ∀ i, i < eqLen → PlacementGenerator.is_valid_row_col h w (PlacementGenerator.span_cell p i) = true := by
  unfold PlacementGenerator.check_cross_point at hcp
  cases hcol : PlacementGenerator.collect_cross_points info h w eqLen p with
  | none => rw [hcol] at hcp; cases hcp
  | some cps =>
    rw [hcol] at hcp
    dsimp only at hcp
    obtain ⟨hcps, hvalid⟩ :=
      collect_fold_spec info h w p (List.range eqLen) [] cps hcol
    rw [List.nil_append] at hcps
    split at hcp
    · cases hcp
    · rename_i hcnt
      simp only [Bool.or_eq_true, decide_eq_true_eq, not_or, not_lt] at hcnt
      have hlen : cps.length = (occupied_span_indices info w eqLen p).length := by
        rw [hcps]; unfold occupied_span_indices; rw [List.length_map]
      refine ⟨?_, ?_, ?_, fun i hi => hvalid i (List.mem_range.mpr hi)⟩
      · omega
      · omega
      · intro i hi
        have hmem : PlacementGenerator.span_cell p i ∈ cps := by
          rw [hcps]
          exact List.mem_map_of_mem _ hi
        have hoff : ((PlacementGenerator.span_cell p i).row - p.row,
            (PlacementGenerator.span_cell p i).col - p.col) ∈
            (match p.direction with
              | .HORIZONTAL => ([(0, 0), (0, 2), (0, 4)] : List (Int × Int))
              | .VERTICAL => [(0, 0), (2, 0), (4, 0)]) := by
          have hfe := List.isEmpty_iff.mp hcp
          have := (List.filter_eq_nil_iff).mp hfe
          have hmm := this _ (List.mem_map_of_mem _ hmem)
          simpa using hmm
        obtain ⟨pr, pc, pd⟩ := p
        cases pd <;>
          simp only [PlacementGenerator.span_cell, List.mem_cons, List.mem_singleton,
            Prod.mk.injEq, List.not_mem_nil, or_false] at hoff <;>
          omega

/-- C6: the placement generator accepts a candidate only when the number of
already-occupied cells along its `eqLen`-cell span is between 1 and 3 and
every occupied cell sits at local index 0, 2 or 4; and on the 5x5 board whose
only occupied cell is (0,1), the horizontal candidate at (0,0) — whose single
crossing is at local index 1 — is rejected, although its cross count 1 lies
within [1,3]. -/
theorem c6_cross_rule :
    (∀ (info : List Char) (h w eqLen : Nat) (p : Placement),
        PlacementGenerator.is_valid_placement info h w eqLen p = true →
        1 ≤ (occupied_span_indices info w eqLen p).length ∧
        (occupied_span_indices info w eqLen p).length ≤ 3 ∧
        ∀ i ∈ occupied_span_indices info w eqLen p, i = 0 ∨ i = 2 ∨ i = 4) ∧
    occupied_span_indices single01_55 5 5 ⟨0, 0, .HORIZONTAL⟩ = [1] ∧
    PlacementGenerator.check_cross_point single01_55 5 5 5 ⟨0, 0, .HORIZONTAL⟩ = false ∧
    PlacementGenerator.is_valid_placement single01_55 5 5 5 ⟨0, 0, .HORIZONTAL⟩ = false := by
  refine ⟨fun info h w eqLen p hv => ?_, by decide, by decide, by decide⟩
  unfold PlacementGenerator.is_valid_placement at hv
  simp only [Bool.and_eq_true] at hv
  obtain spec := check_cross_point_spec info h w eqLen p hv.2
  exact ⟨spec.1, spec.2.1, spec.2.2.1⟩

/-- C6 witness: on the 5x5 board whose row 0 is occupied, the vertical
candidate at (0,0) is accepted, and its occupied span indices obey the rule. -/
theorem c6_witness :
    PlacementGenerator.is_valid_placement row0_55 5 5 5 ⟨0, 0, .VERTICAL⟩ = true ∧
    (1 ≤ (occupied_span_indices row0_55 5 5 ⟨0, 0, .VERTICAL⟩).length ∧
     (occupied_span_indices row0_55 5 5 ⟨0, 0, .VERTICAL⟩).length ≤ 3 ∧
     ∀ i ∈ occupied_span_indices row0_55 5 5 ⟨0, 0, .VERTICAL⟩, i = 0 ∨ i = 2 ∨ i = 4) :=
  ⟨by decide, c6_cross_rule.1 row0_55 5 5 5 ⟨0, 0, .VERTICAL⟩ (by decide)⟩

theorem build_step_snd (info : List Char) (s : Size) (eqLen : Nat)
    (st : Nat × List (Nat × List RowCol)) (coord : RowCol) :
    ((EquationLayoutBriefBuilder.build_step info s eqLen st coord).2).map Prod.snd =
      st.2.map Prod.snd ++ window_cands info s eqLen coord := by
  unfold EquationLayoutBriefBuilder.build_step window_cands
  cases hH : EquationLayoutBriefBuilder.get_horizontal_range_coords coord eqLen s <;>
    cases hV : EquationLayoutBriefBuilder.get_vertical_range_coords coord eqLen s <;>
      dsimp only <;> first
        | (split_ifs <;> simp)
        | simp

theorem build_fold_snd (info : List Char) (s : Size) (eqLen : Nat) :
    ∀ (cs : List RowCol) (st : Nat × List (Nat × List RowCol)),
      (((cs.foldl (EquationLayoutBriefBuilder.build_step info s eqLen) st).2).map Prod.snd) =
        st.2.map Prod.snd ++ cs.flatMap (window_cands info s eqLen) := by
  intro cs
  induction cs with
  | nil => intro st; simp
  | cons a cs ih =>
    intro st
    rw [List.foldl_cons, ih, build_step_snd]
    simp

theorem mem_scan_coords (h w : Nat) (r c : Int) (hr0 : 0 ≤ r) (hrh : r < (h : Int))
    (hc0 : 0 ≤ c) (hcw : c < (w : Int)) : (⟨r, c⟩ : RowCol) ∈ scan_coords h w := by
  have h1 : (⟨r, c⟩ : RowCol) = ⟨((r.toNat : Nat) : Int), ((c.toNat : Nat) : Int)⟩ := by
    simp only [RowCol.mk.injEq]
    exact ⟨by omega, by omega⟩
  have hr : r.toNat ∈ List.range h := List.mem_range.mpr (by omega)
  have hc : c.toNat ∈ List.range w := List.mem_range.mpr (by omega)
  rw [h1]
  unfold scan_coords
  exact List.mem_flatMap.mpr ⟨r.toNat, hr, List.mem_map_of_mem _ hc⟩

theorem range_coords_start_valid (start : RowCol) (cnt : Nat) (s : Size) (cs : List RowCol)
    (hw : EquationLayoutBriefBuilder.get_horizontal_range_coords start cnt s = some cs ∨
      EquationLayoutBriefBuilder.get_vertical_range_coords start cnt s = some cs) :
    EquationLayoutBriefBuilder.is_valid_coord start s = true := by
  rcases hw with hw | hw
  · unfold EquationLayoutBriefBuilder.get_horizontal_range_coords at hw
    dsimp only at hw
    split at hw
    · rename_i hcond
      rw [Bool.and_eq_true] at hcond
      exact hcond.1
    · cases hw
  · unfold EquationLayoutBriefBuilder.get_vertical_range_coords at hw
    dsimp only at hw
    split at hw
    · rename_i hcond
      rw [Bool.and_eq_true] at hcond
      exact hcond.1
    · cases hw

/-- C10: the equation decomposer records an equation for every in-bounds
window of exactly `equation_length` consecutive all-occupied cells, horizontal
or vertical, not only for maximal runs; on the 1x7 all-occupied board the
three overlapping horizontal windows are all recorded (7 − 5 + 1 = 3
equations), and the first two of them share 4 > 1 coordinates. -/
theorem c10_every_window_recorded :
    (∀ (info : List Char) (w h : Nat) (eqs : List (Nat × List RowCol)) (start : RowCol)
        (cs : List RowCol),
        EquationLayoutBriefBuilder.build_by_layout info w h 5 = some eqs →
        (EquationLayoutBriefBuilder.get_horizontal_range_coords start 5 ⟨h, w⟩ = some cs ∨
         EquationLayoutBriefBuilder.get_vertical_range_coords start 5 ⟨h, w⟩ = some cs) →
        EquationLayoutBriefBuilder.update_ok info w cs = true →
        ∃ id, (id, cs) ∈ eqs) ∧
    ((EquationLayoutBriefBuilder.build_by_layout run17 7 1 5).getD []).map Prod.snd =
      [win17 0, win17 1, win17 2] ∧
    ((win17 0).inter (win17 1)).length = 4 ∧ 7 - 5 + 1 = 3 := by
  refine ⟨?_, by decide, by decide, by decide⟩
  intro info w h eqs start cs hbuild hwin hocc
  unfold EquationLayoutBriefBuilder.build_by_layout at hbuild
  split at hbuild
  · cases hbuild
  · injection hbuild with hb
    have hsnd : eqs.map Prod.snd = (scan_coords h w).flatMap (window_cands info ⟨h, w⟩ 5) := by
      rw [← hb, build_fold_snd]
      simp
    have hstart := range_coords_start_valid start 5 ⟨h, w⟩ cs hwin
    simp only [EquationLayoutBriefBuilder.is_valid_coord, Bool.and_eq_true,
      decide_eq_true_eq] at hstart
    have hcs : cs ∈ eqs.map Prod.snd := by
      rw [hsnd, List.mem_flatMap]
      refine ⟨start, ?_, ?_⟩
      · obtain ⟨r, c⟩ := start
        exact mem_scan_coords h w r c hstart.1.1.1 hstart.1.1.2 hstart.1.2 hstart.2
      · unfold window_cands
        rcases hwin with hwin | hwin
        · rw [hwin]
          dsimp only
          rw [List.mem_append]
          left
          simp [hocc]
        · rw [hwin]
          dsimp only
          rw [List.mem_append]
          right
          simp [hocc]
    obtain ⟨pr, hpr, hsnd2⟩ := List.mem_map.mp hcs
    refine ⟨pr.1, ?_⟩
    have : (pr.1, cs) = pr := by
      rw [← hsnd2]
    rwa [this]

theorem count_set_one_le (xs : List Char) (n : Nat) :
    xs.count '1' ≤ (xs.set n '1').count '1' := by
  induction xs generalizing n with
  | nil => simp
  | cons a xs ih =>
    cases n with
    | zero =>
      simp only [List.set, List.count_cons]
      split <;> simp
    | succ n =>
      simp only [List.set, List.count_cons]
      have := ih n
      split <;> omega

theorem count_set_one_succ (xs : List Char) (n : Nat) (ch : Char)
    (hn : xs[n]? = some ch) (hch : ch ≠ '1') :
    (xs.set n '1').count '1' = xs.count '1' + 1 := by
  induction xs generalizing n with
  | nil => simp at hn
  | cons a xs ih =>
    cases n with
    | zero =>
      simp only [List.getElem?_cons_zero, Option.some.injEq] at hn
      subst hn
      simp only [List.set, List.count_cons]
      have hne : (a == '1') = false := by
        simpa using hch
      simp [hne]
    | succ n =>
      simp only [List.getElem?_cons_succ] at hn
      simp only [List.set, List.count_cons, ih n hn]
      split <;> omega

theorem fold_set_length (idxs : List Nat) : ∀ (xs : List Char),
    (idxs.foldl (fun s n => s.set n '1') xs).length = xs.length := by
  induction idxs with
  | nil => intro xs; rfl
  | cons a idxs ih =>
    intro xs
    rw [List.foldl_cons, ih, List.length_set]

theorem fold_set_count_le (idxs : List Nat) : ∀ (xs : List Char),
    xs.count '1' ≤ (idxs.foldl (fun s n => s.set n '1') xs).count '1' := by
  induction idxs with
  | nil => intro xs; exact le_refl _
  | cons a idxs ih =>
    intro xs
    rw [List.foldl_cons]
    exact le_trans (count_set_one_le xs a) (ih (xs.set a '1'))

theorem fold_set_count_succ (n0 : Nat) (ch : Char) (hch : ch ≠ '1') :
    ∀ (idxs : List Nat) (xs : List Char), n0 ∈ idxs → xs[n0]? = some ch →
      xs.count '1' + 1 ≤ (idxs.foldl (fun s n => s.set n '1') xs).count '1' := by
  intro idxs
  induction idxs with
  | nil => intro xs h; cases h
  | cons a idxs ih =>
    intro xs hmem hn
    rw [List.foldl_cons]
    by_cases ha : a = n0
    · subst ha
      have heq : (xs.set a '1').count '1' = xs.count '1' + 1 :=
        count_set_one_succ xs a ch hn hch
      rw [← heq]
      exact fold_set_count_le idxs _
    · rcases List.mem_cons.mp hmem with h | h
      · exact absurd h.symm ha
      · have hn' : (xs.set a '1')[n0]? = some ch := by
          rw [List.getElem?_set_ne ha]
          exact hn
        have hle := count_set_one_le xs a
        have := ih (xs.set a '1') h hn'
        omega

theorem fold_set_mem_one (idxs : List Nat) : ∀ (xs : List Char) (n : Nat),
    n ∈ idxs → n < xs.length → '1' ∈ idxs.foldl (fun s n => s.set n '1') xs := by
  induction idxs with
  | nil => intro xs n h; cases h
  | cons a idxs ih =>
    intro xs n hmem hlen
    rw [List.foldl_cons]
    rcases List.mem_cons.mp hmem with rfl | h
    · have h1 : '1' ∈ xs.set n '1' := List.mem_set xs n hlen '1'
      have h2 : 0 < (xs.set n '1').count '1' := List.count_pos_iff.mpr h1
      have h3 := fold_set_count_le idxs (xs.set n '1')
      exact List.count_pos_iff.mp (lt_of_lt_of_le h2 h3)
    · exact ih (xs.set a '1') n h (by rw [List.length_set]; exact hlen)

theorem foldl_set_toNat (idxs : List Int) (xs : List Char) :
    idxs.foldl (fun s i => s.set i.toNat '1') xs =
      (idxs.map Int.toNat).foldl (fun s n => s.set n '1') xs := by
  rw [List.foldl_map]

theorem span_flat_idx_bounds (h w : Nat) (c : RowCol)
    (hv : PlacementGenerator.is_valid_row_col h w c = true) :
    0 ≤ c.row * (w : Int) + c.col ∧ c.row * (w : Int) + c.col < (h : Int) * (w : Int) := by
  unfold PlacementGenerator.is_valid_row_col at hv
  simp only [Bool.and_eq_true, decide_eq_true_eq] at hv
  obtain ⟨⟨⟨h1, h2⟩, h3⟩, h4⟩ := hv
  have h5 : 0 ≤ c.row * (w : Int) := mul_nonneg h1 (Int.natCast_nonneg w)
  refine ⟨by omega, ?_⟩
  have h7 : c.row * (w : Int) + (w : Int) = (c.row + 1) * w := by ring
  have h8 : (c.row + 1) * (w : Int) ≤ (h : Int) * w :=
    mul_le_mul_of_nonneg_right (by omega) (Int.natCast_nonneg w)
  omega

theorem set_one_points_eq_span (eqLen : Nat) (p : Placement) :
    LayoutGenerator.set_one_points eqLen p =
      (List.range eqLen).map (fun i =>
        ((PlacementGenerator.span_cell p i).row, (PlacementGenerator.span_cell p i).col)) := by
  obtain ⟨r, c, d⟩ := p
  cases d <;> rfl

theorem apply_placement_dims (l : Layout) (p : Placement) (eqLen : Nat) (l' : Layout)
    (happ : LayoutGenerator.apply_placement l p eqLen = some l') :
    l'.height = l.height ∧ l'.width = l.width ∧
    l'.layout_info.length = l.layout_info.length := by
  unfold LayoutGenerator.apply_placement at happ
  dsimp only at happ
  split at happ
  · injection happ with happ
    subst happ
    refine ⟨rfl, rfl, ?_⟩
    dsimp only
    rw [foldl_set_toNat, fold_set_length]
  · cases happ

theorem apply_placement_increases (l : Layout) (p : Placement) (eqLen : Nat)
    (hlen : l.layout_info.length = l.height * l.width)
    (heq : 4 ≤ eqLen)
    (hv : PlacementGenerator.is_valid_placement l.layout_info l.height l.width eqLen p = true) :
    ∃ l', LayoutGenerator.apply_placement l p eqLen = some l' ∧
      l.layout_info.count '1' + 1 ≤ l'.layout_info.count '1' := by
  have hv' := hv
  unfold PlacementGenerator.is_valid_placement at hv'
  simp only [Bool.and_eq_true] at hv'
  obtain ⟨⟨⟨_, _⟩, _⟩, hcp⟩ := hv'
  obtain ⟨hge1, hle3, hidx048, hval⟩ :=
    check_cross_point_spec l.layout_info l.height l.width eqLen p hcp
  have hex : ∃ i0, i0 < eqLen ∧
      ¬((charAt l.layout_info l.width (PlacementGenerator.span_cell p i0) == '1') = true) := by
    by_contra hno
    push_neg at hno
    have hfe : occupied_span_indices l.layout_info l.width eqLen p = List.range eqLen := by
      unfold occupied_span_indices
      apply List.filter_eq_self.mpr
      intro i hi
      exact hno i (List.mem_range.mp hi)
    rw [hfe, List.length_range] at hle3
    omega
  obtain ⟨i0, hi0lt, hch⟩ := hex
  have hall : ∀ i, i < eqLen →
      0 ≤ (PlacementGenerator.span_cell p i).row * (l.width : Int) +
        (PlacementGenerator.span_cell p i).col ∧
      (PlacementGenerator.span_cell p i).row * (l.width : Int) +
        (PlacementGenerator.span_cell p i).col < (l.layout_info.length : Int) := by
    intro i hi
    have hb := span_flat_idx_bounds l.height l.width _ (hval i hi)
    have hcm : ((l.height : Int) * (l.width : Int)) = (l.layout_info.length : Int) := by
      rw [hlen]
      push_cast
      ring
    omega
  unfold LayoutGenerator.apply_placement
  dsimp only
  rw [set_one_points_eq_span]
  have hcond : (((List.range eqLen).map (fun i =>
        ((PlacementGenerator.span_cell p i).row, (PlacementGenerator.span_cell p i).col))).map
          (fun q => q.1 * (l.width : Int) + q.2)).all
        (fun i => decide (0 ≤ i) && decide (i < (l.layout_info.length : Int))) = true := by
    rw [List.all_eq_true]
    intro x hx
    rw [List.mem_map] at hx
    obtain ⟨q, hq, rfl⟩ := hx
    rw [List.mem_map] at hq
    obtain ⟨i, hi, rfl⟩ := hq
    rw [List.mem_range] at hi
    simp only [Bool.and_eq_true, decide_eq_true_eq]
    exact hall i hi
  rw [if_pos hcond]
  refine ⟨_, rfl, ?_⟩
  dsimp only
  rw [foldl_set_toNat]
  have hn0lt : ((PlacementGenerator.span_cell p i0).row * (l.width : Int) +
      (PlacementGenerator.span_cell p i0).col).toNat < l.layout_info.length := by
    have := hall i0 hi0lt
    omega
  cases hxs : l.layout_info[((PlacementGenerator.span_cell p i0).row * (l.width : Int) +
      (PlacementGenerator.span_cell p i0).col).toNat]? with
  | none =>
    rw [List.getElem?_eq_none_iff] at hxs
    omega
  | some ch =>
    have hcharAt : charAt l.layout_info l.width (PlacementGenerator.span_cell p i0) = ch := by
      unfold charAt
      rw [List.getD_eq_getElem?_getD, hxs]
      rfl
    have hchne : ch ≠ '1' := by
      intro hcheq
      apply hch
      rw [hcharAt, hcheq]
      rfl
    apply fold_set_count_succ _ ch hchne _ l.layout_info _ hxs
    have hm1 : ((PlacementGenerator.span_cell p i0).row, (PlacementGenerator.span_cell p i0).col) ∈
        (List.range eqLen).map (fun i =>
          ((PlacementGenerator.span_cell p i).row, (PlacementGenerator.span_cell p i).col)) :=
      List.mem_map_of_mem _ (List.mem_range.mpr hi0lt)
    have hm2 := List.mem_map_of_mem (fun q : Int × Int => q.1 * (l.width : Int) + q.2) hm1
    exact List.mem_map_of_mem Int.toNat hm2

theorem apply_placement_ones_pos (l : Layout) (p : Placement) (eqLen : Nat) (l' : Layout)
    (h1 : 1 ≤ eqLen) (happ : LayoutGenerator.apply_placement l p eqLen = some l') :
    1 ≤ l'.layout_info.count '1' := by
  unfold LayoutGenerator.apply_placement at happ
  dsimp only at happ
  split at happ
  · rename_i hcond
    injection happ with happ
    subst happ
    dsimp only
    rw [set_one_points_eq_span, foldl_set_toNat]
    rw [set_one_points_eq_span] at hcond
    have hm1 : ((PlacementGenerator.span_cell p 0).row, (PlacementGenerator.span_cell p 0).col) ∈
        (List.range eqLen).map (fun i =>
          ((PlacementGenerator.span_cell p i).row, (PlacementGenerator.span_cell p i).col)) :=
      List.mem_map_of_mem _ (List.mem_range.mpr (by omega))
    have hm2 := List.mem_map_of_mem (fun q : Int × Int => q.1 * (l.width : Int) + q.2) hm1
    have hm3 := List.mem_map_of_mem Int.toNat hm2
    have hb : ((PlacementGenerator.span_cell p 0).row * (l.width : Int) +
        (PlacementGenerator.span_cell p 0).col).toNat < l.layout_info.length := by
      rw [List.all_eq_true] at hcond
      have := hcond _ hm2
      simp only [Bool.and_eq_true, decide_eq_true_eq] at this
      omega
    have hmem := fold_set_mem_one _ l.layout_info _ hm3 hb
    exact List.count_pos_iff.mpr hmem
  · cases happ

theorem generate_placement_valid (info : List Char) (h w eqLen : Nat)
    (eqs : List (Nat × List RowCol)) (p : Placement)
    (hp : p ∈ PlacementGenerator.generate_placement info h w eqLen eqs) :
    PlacementGenerator.is_valid_placement info h w eqLen p = true := by
  unfold PlacementGenerator.generate_placement at hp
  rw [List.mem_flatMap] at hp
  obtain ⟨sd, _, hp⟩ := hp
  exact (List.mem_filter.mp hp).2

theorem iter_dfs_fold_inv (eqLen fuel depth : Nat) (l : Layout)
    (IH : ∀ (depth : Nat) (l : Layout) (seen : List (List Char)),
      DfsInv l seen (LayoutGenerator.iter_dfs eqLen fuel depth l seen))
    (seen : List (List Char)) :
    ∀ (ps : List Placement) (acc : LayoutGenerator.DfsOut),
      DfsInv l seen acc →
      DfsInv l seen (ps.foldl
        (fun acc p =>
          if acc.ok then
            match LayoutGenerator.apply_placement l p eqLen with
            | none => ⟨acc.emitted, acc.seen, acc.max_depth, false⟩
            | some child =>
              let r := LayoutGenerator.iter_dfs eqLen fuel (depth + 1) child acc.seen
              ⟨acc.emitted ++ r.emitted, r.seen, max acc.max_depth r.max_depth, r.ok⟩
          else acc) acc) := by
  intro ps
  induction ps with
  | nil => intro acc hacc; exact hacc
  | cons p ps ih =>
    intro acc hacc
    rw [List.foldl_cons]
    apply ih
    by_cases hok : acc.ok = true
    · rw [if_pos hok]
      cases happ : LayoutGenerator.apply_placement l p eqLen with
      | none => exact ⟨hacc.1, hacc.2.1, hacc.2.2.1, hacc.2.2.2⟩
      | some child =>
        dsimp only
        obtain ⟨ha1, ha2, ha3, ha4⟩ := hacc
        obtain ⟨hr1, hr2, hr3, hr4⟩ := IH (depth + 1) child acc.seen
        obtain ⟨hd1, hd2, hd3⟩ := apply_placement_dims l p eqLen child happ
        refine ⟨?_, ?_, ?_, ?_⟩
        · intro x hx
          exact hr1 _ (ha1 x hx)
        · rw [List.map_append, List.nodup_append]
          refine ⟨ha2, hr2, ?_⟩
          intro a hmem1 hmem2
          obtain ⟨g, hg, hgeq⟩ := List.mem_map.mp hmem1
          obtain ⟨g2, hg2, hgeq2⟩ := List.mem_map.mp hmem2
          have hin : g.layout_info ∈ acc.seen := (ha3 g hg).2
          have hnot : g2.layout_info ∉ acc.seen := (hr3 g2 hg2).1
          rw [hgeq2, ← hgeq] at hnot
          exact hnot hin
        · intro g hg
          rcases List.mem_append.mp hg with hg | hg
          · exact ⟨(ha3 g hg).1, hr1 _ (ha3 g hg).2⟩
          · refine ⟨?_, (hr3 g hg).2⟩
            intro hbad
            exact (hr3 g hg).1 (ha1 _ hbad)
        · intro g hg
          rcases List.mem_append.mp hg with hg | hg
          · exact ha4 g hg
          · have hgr := hr4 g hg
            exact ⟨hgr.1, by rw [hgr.2.1, hd1], by rw [hgr.2.2.1, hd2],
              by rw [hgr.2.2.2, hd3]⟩
    · rw [if_neg hok]
      exact hacc

theorem iter_dfs_inv (eqLen : Nat) :
    ∀ (fuel depth : Nat) (l : Layout) (seen : List (List Char)),
      DfsInv l seen (LayoutGenerator.iter_dfs eqLen fuel depth l seen) := by
  intro fuel
  induction fuel with
  | zero =>
    intro depth l seen
    exact ⟨fun x hx => hx, List.nodup_nil, fun g hg => absurd hg (List.not_mem_nil g),
      fun g hg => absurd hg (List.not_mem_nil g)⟩
  | succ fuel IH =>
    intro depth l seen
    rw [LayoutGenerator.iter_dfs]
    split
    · exact ⟨fun x hx => hx, by simp, by simp, by simp⟩
    · rename_i hnotseen
      dsimp only
      cases hval : LayoutGenerator.is_valid_layout l with
      | none =>
        dsimp only
        exact ⟨fun x hx => List.mem_cons_of_mem _ hx, by simp, by simp, by simp⟩
      | some b =>
        dsimp only
        cases hbuild : EquationLayoutBriefBuilder.build_by_layout l.layout_info l.width
            l.height eqLen with
        | none =>
          dsimp only
          refine ⟨fun x hx => List.mem_cons_of_mem _ hx, ?_, ?_, ?_⟩ <;> cases b
          · simp
          · simp
          · simp
          · intro g hg
            simp only [if_true] at hg
            rw [List.mem_singleton] at hg
            subst hg
            exact ⟨hnotseen, List.mem_cons_self _ _⟩
          · simp
          · intro g hg
            simp only [if_true] at hg
            rw [List.mem_singleton] at hg
            subst hg
            exact ⟨hval, rfl, rfl, rfl⟩
        | some eqs =>
          dsimp only
          apply iter_dfs_fold_inv eqLen fuel depth l IH seen
          refine ⟨fun x hx => List.mem_cons_of_mem _ hx, ?_, ?_, ?_⟩ <;> cases b
          · simp
          · simp
          · simp
          · intro g hg
            simp only [if_true] at hg
            rw [List.mem_singleton] at hg
            subst hg
            exact ⟨hnotseen, List.mem_cons_self _ _⟩
          · simp
          · intro g hg
            simp only [if_true] at hg
            rw [List.mem_singleton] at hg
            subst hg
            exact ⟨hval, rfl, rfl, rfl⟩

theorem run_seeds_inv (size : Size) (eqLen fuel : Nat) :
    ∀ (seeds : List Placement) (seen : List (List Char)),
      SeedsInv size seen (LayoutGenerator.run_seeds size eqLen fuel seeds seen) := by
  intro seeds
  induction seeds with
  | nil =>
    intro seen
    exact ⟨fun x hx => hx, List.nodup_nil, fun g hg => absurd hg (List.not_mem_nil g),
      fun g hg => absurd hg (List.not_mem_nil g)⟩
  | cons p seeds ih =>
    intro seen
    rw [LayoutGenerator.run_seeds]
    dsimp only
    cases happ : LayoutGenerator.apply_placement
        ⟨List.replicate (size.height * size.width) '0', size.height, size.width⟩ p eqLen with
    | none =>
      dsimp only
      exact ⟨fun x hx => hx, List.nodup_nil, fun g hg => absurd hg (List.not_mem_nil g),
        fun g hg => absurd hg (List.not_mem_nil g)⟩
    | some lseed =>
      dsimp only
      obtain ⟨hr1, hr2, hr3, hr4⟩ := iter_dfs_inv eqLen fuel 1 lseed seen
      obtain ⟨hd1, hd2, hd3⟩ := apply_placement_dims _ p eqLen lseed happ
      have hlift : ∀ g : Layout,
          LayoutGenerator.is_valid_layout g = some true ∧ g.height = lseed.height ∧
            g.width = lseed.width ∧ g.layout_info.length = lseed.layout_info.length →
          LayoutGenerator.is_valid_layout g = some true ∧ g.height = size.height ∧
            g.width = size.width ∧ g.layout_info.length = size.height * size.width := by
        intro g hg
        refine ⟨hg.1, ?_, ?_, ?_⟩
        · rw [hg.2.1, hd1]
        · rw [hg.2.2.1, hd2]
        · rw [hg.2.2.2, hd3, List.length_replicate]
      split
      · rename_i hok
        obtain ⟨hs1, hs2, hs3, hs4⟩ :=
          ih (LayoutGenerator.iter_dfs eqLen fuel 1 lseed seen).seen
        refine ⟨?_, ?_, ?_, ?_⟩
        · intro x hx
          exact hs1 _ (hr1 x hx)
        · rw [List.map_append, List.nodup_append]
          refine ⟨hr2, hs2, ?_⟩
          intro a hmem1 hmem2
          obtain ⟨g, hg, hgeq⟩ := List.mem_map.mp hmem1
          obtain ⟨g2, hg2, hgeq2⟩ := List.mem_map.mp hmem2
          have hin : g.layout_info ∈ (LayoutGenerator.iter_dfs eqLen fuel 1 lseed seen).seen :=
            (hr3 g hg).2
          have hnot := (hs3 g2 hg2).1
          rw [hgeq2, ← hgeq] at hnot
          exact hnot hin
        · intro g hg
          rcases List.mem_append.mp hg with hg | hg
          · exact ⟨(hr3 g hg).1, hs1 _ (hr3 g hg).2⟩
          · refine ⟨?_, (hs3 g hg).2⟩
            intro hbad
            exact (hs3 g hg).1 (hr1 _ hbad)
        · intro g hg
          rcases List.mem_append.mp hg with hg | hg
          · exact hlift g (hr4 g hg)
          · exact hs4 g hg
      · exact ⟨hr1, hr2, hr3, fun g hg => hlift g (hr4 g hg)⟩

/-- C8: within one `generate_layout` run, no two emitted layouts share an
occupancy string: the visited set is consulted and extended before any
emission, across all seeds and depths. -/
theorem c8_no_duplicate_emissions :
    ∀ (size : Size) (eqLen fuel : Nat),
      (((LayoutGenerator.generate_layout size eqLen fuel).emitted).map
        Layout.layout_info).Nodup :=
  fun size eqLen fuel =>
    (run_seeds_inv size eqLen fuel (LayoutGenerator.get_init_placements size eqLen) []).2.1

/-- C1 amended: every layout emitted by `generate_layout` with equation
length 5 carries the requested height and width, its occupancy string has
length height times width, and it passes the boundary gate: all four
outer-edge ring counts are strictly positive.  (The full validator may still
reject an emitted grid — see the counterexample.) -/
theorem c1_amended_emitted_grids :
    ∀ (size : Size) (fuel : Nat) (g : Layout),
      g ∈ (LayoutGenerator.generate_layout size 5 fuel).emitted →
      (∃ cnt, CircleBlockCountExtractor.cal_outer_circle_block_count g.layout_info
          g.height g.width = some cnt ∧
        0 < cnt.top ∧ 0 < cnt.bottom ∧ 0 < cnt.left ∧ 0 < cnt.right) ∧
      g.height = size.height ∧ g.width = size.width ∧
      g.layout_info.length = size.height * size.width := by
  intro size fuel g hg
  have h4 := (run_seeds_inv size 5 fuel (LayoutGenerator.get_init_placements size 5) []).2.2.2
    g hg
  refine ⟨?_, h4.2.1, h4.2.2.1, h4.2.2.2⟩
  have hval := h4.1
  unfold LayoutGenerator.is_valid_layout at hval
  cases hc : CircleBlockCountExtractor.cal_outer_circle_block_count g.layout_info
      g.height g.width with
  | none => rw [hc] at hval; cases hval
  | some cnt =>
    rw [hc] at hval
    simp only [Option.map_some', Option.some.injEq] at hval
    refine ⟨cnt, rfl, ?_⟩
    unfold OuterCircleBlockCount.to_list at hval
    simp only [List.all_cons, List.all_nil, Bool.and_true, Bool.and_eq_true,
      decide_eq_true_eq] at hval
    exact ⟨hval.1, hval.2.1, hval.2.2.1, hval.2.2.2⟩

/-- C1 witness: instantiating the amended claim at Size(1,5): the emitted
grid "11111" passes the boundary gate and has occupancy length 1 x 5. -/
theorem c1_amended_witness :
    (layout_11111 ∈ (LayoutGenerator.generate_layout ⟨1, 5⟩ 5 15).emitted) ∧
    ((∃ cnt, CircleBlockCountExtractor.cal_outer_circle_block_count layout_11111.layout_info
        layout_11111.height layout_11111.width = some cnt ∧
      0 < cnt.top ∧ 0 < cnt.bottom ∧ 0 < cnt.left ∧ 0 < cnt.right) ∧
    layout_11111.height = (1 : Nat) ∧ layout_11111.width = (5 : Nat) ∧
    layout_11111.layout_info.length = 1 * 5) :=
  ⟨by decide, c1_amended_emitted_grids ⟨1, 5⟩ 15 layout_11111 (by decide)⟩

theorem iter_dfs_depth_fold (eqLen : Nat) (heq : 4 ≤ eqLen) (fuel depth : Nat) (l : Layout)
    (IH : ∀ (depth : Nat) (l : Layout) (seen : List (List Char)),
      l.layout_info.length = l.height * l.width →
      (LayoutGenerator.iter_dfs eqLen fuel depth l seen).max_depth ≤
        depth + (l.layout_info.length - l.layout_info.count '1'))
    (hlen : l.layout_info.length = l.height * l.width) :
    ∀ (ps : List Placement) (acc : LayoutGenerator.DfsOut),
      (∀ p ∈ ps,
        PlacementGenerator.is_valid_placement l.layout_info l.height l.width eqLen p = true) →
      acc.max_depth ≤ depth + (l.layout_info.length - l.layout_info.count '1') →
      (ps.foldl
        (fun acc p =>
          if acc.ok then
            match LayoutGenerator.apply_placement l p eqLen with
            | none => ⟨acc.emitted, acc.seen, acc.max_depth, false⟩
            | some child =>
              let r := LayoutGenerator.iter_dfs eqLen fuel (depth + 1) child acc.seen
              ⟨acc.emitted ++ r.emitted, r.seen, max acc.max_depth r.max_depth, r.ok⟩
          else acc) acc).max_depth ≤
        depth + (l.layout_info.length - l.layout_info.count '1') := by
  intro ps
  induction ps with
  | nil => intro acc _ hacc; exact hacc
  | cons p ps ih =>
    intro acc hps hacc
    rw [List.foldl_cons]
    apply ih _ (fun q hq => hps q (List.mem_cons_of_mem _ hq))
    by_cases hok : acc.ok = true
    · rw [if_pos hok]
      cases happ : LayoutGenerator.apply_placement l p eqLen with
      | none => exact hacc
      | some child =>
        dsimp only
        rw [Nat.max_le]
        refine ⟨hacc, ?_⟩
        obtain ⟨child2, happ2, hcount⟩ :=
          apply_placement_increases l p eqLen hlen heq (hps p (List.mem_cons_self _ _))
        rw [happ] at happ2
        injection happ2 with happ2
        subst happ2
        obtain ⟨hd1, hd2, hd3⟩ := apply_placement_dims l p eqLen child happ
        have hchlen : child.layout_info.length = child.height * child.width := by
          rw [hd1, hd2, hd3, hlen]
        have hbound := IH (depth + 1) child acc.seen hchlen
        have hcle : child.layout_info.count '1' ≤ child.layout_info.length :=
          List.count_le_length '1' child.layout_info
        rw [hd3] at hcle
        omega
    · rw [if_neg hok]
      exact hacc

theorem iter_dfs_depth_le (eqLen : Nat) (heq : 4 ≤ eqLen) :
    ∀ (fuel depth : Nat) (l : Layout) (seen : List (List Char)),
      l.layout_info.length = l.height * l.width →
      (LayoutGenerator.iter_dfs eqLen fuel depth l seen).max_depth ≤
        depth + (l.layout_info.length - l.layout_info.count '1') := by
  intro fuel
  induction fuel with
  | zero =>
    intro depth l seen hlen
    exact Nat.le_add_right _ _
  | succ fuel IH =>
    intro depth l seen hlen
    rw [LayoutGenerator.iter_dfs]
    split
    · exact Nat.le_add_right _ _
    · dsimp only
      cases hval : LayoutGenerator.is_valid_layout l with
      | none => exact Nat.le_add_right _ _
      | some b =>
        dsimp only
        cases hbuild : EquationLayoutBriefBuilder.build_by_layout l.layout_info l.width
            l.height eqLen with
        | none => exact Nat.le_add_right _ _
        | some eqs =>
          dsimp only
          apply iter_dfs_depth_fold eqLen heq fuel depth l IH hlen
          · intro p hp
            exact generate_placement_valid l.layout_info l.height l.width eqLen eqs p hp
          · exact Nat.le_add_right _ _

theorem run_seeds_depth_le (size : Size) (eqLen fuel : Nat) (heq : 4 ≤ eqLen) :
    ∀ (seeds : List Placement) (seen : List (List Char)),
      (LayoutGenerator.run_seeds size eqLen fuel seeds seen).max_depth ≤
        size.height * size.width := by
  intro seeds
  induction seeds with
  | nil => intro seen; exact Nat.zero_le _
  | cons p seeds ih =>
    intro seen
    rw [LayoutGenerator.run_seeds]
    dsimp only
    cases happ : LayoutGenerator.apply_placement
        ⟨List.replicate (size.height * size.width) '0', size.height, size.width⟩ p eqLen with
    | none => exact Nat.zero_le _
    | some lseed =>
      dsimp only
      obtain ⟨hd1, hd2, hd3⟩ := apply_placement_dims _ p eqLen lseed happ
      have hslen : lseed.layout_info.length = lseed.height * lseed.width := by
        rw [hd1, hd2, hd3]
        dsimp only
        rw [List.length_replicate]
      have hones : 1 ≤ lseed.layout_info.count '1' :=
        apply_placement_ones_pos _ p eqLen lseed (by omega) happ
      have hlenval : lseed.layout_info.length = size.height * size.width := by
        rw [hd3]
        dsimp only
        rw [List.length_replicate]
      have hcle : lseed.layout_info.count '1' ≤ lseed.layout_info.length :=
        List.count_le_length '1' lseed.layout_info
      have hbound := iter_dfs_depth_le eqLen heq fuel 1 lseed seen hslen
      split
      · rw [Nat.max_le]
        exact ⟨by omega, ih _⟩
      · dsimp only
        omega

/-- C5 amended: every placement accepted by the placement validator strictly
increases the number of occupied cells (a crossing count of at most 3 leaves
at least one span cell to fill), and the recursion depth of the depth-first
expansion is bounded by height times width — not by
(height x width) / equation_length, which the 5x5 search exceeds. -/
theorem c5_amended_termination :
    (∀ (l : Layout) (p : Placement) (eqLen : Nat),
        4 ≤ eqLen →
        l.layout_info.length = l.height * l.width →
        PlacementGenerator.is_valid_placement l.layout_info l.height l.width eqLen p = true →
        ∃ l', LayoutGenerator.apply_placement l p eqLen = some l' ∧
          l.layout_info.count '1' < l'.layout_info.count '1') ∧
    (∀ (size : Size) (eqLen fuel : Nat), 4 ≤ eqLen →
        (LayoutGenerator.generate_layout size eqLen fuel).max_depth ≤
          size.height * size.width) := by
  constructor
  · intro l p eqLen heq hlen hv
    obtain ⟨l', happ, hcount⟩ := apply_placement_increases l p eqLen hlen heq hv
    exact ⟨l', happ, by omega⟩
  · intro size eqLen fuel heq
    exact run_seeds_depth_le size eqLen fuel heq
      (LayoutGenerator.get_init_placements size eqLen) []

/-- C5 witness: on the 5x5 board with row 0 occupied, the accepted vertical
placement at (0,0) strictly increases the occupied count (5 to 9), and the
Size(2,2) run's depth respects the height-times-width bound. -/
theorem c5_amended_witness :
    ((4 : Nat) ≤ 5 ∧
     (⟨row0_55, 5, 5⟩ : Layout).layout_info.length =
       (⟨row0_55, 5, 5⟩ : Layout).height * (⟨row0_55, 5, 5⟩ : Layout).width ∧
     PlacementGenerator.is_valid_placement row0_55 5 5 5 ⟨0, 0, .VERTICAL⟩ = true) ∧
    (∃ l', LayoutGenerator.apply_placement ⟨row0_55, 5, 5⟩ ⟨0, 0, .VERTICAL⟩ 5 = some l' ∧
      (⟨row0_55, 5, 5⟩ : Layout).layout_info.count '1' < l'.layout_info.count '1') ∧
    (LayoutGenerator.generate_layout ⟨2, 2⟩ 5 3).max_depth ≤ 2 * 2 :=
  ⟨⟨by decide, by decide, by decide⟩,
   c5_amended_termination.1 ⟨row0_55, 5, 5⟩ ⟨0, 0, .VERTICAL⟩ 5 (by decide) (by decide)
     (by decide),
   c5_amended_termination.2 ⟨2, 2⟩ 5 3 (by decide)⟩

/-- C9 amended: the Size(5,5) run with equation length 5 yields exactly 49
grids, pairwise distinct by occupancy string, and the run completes. -/
theorem c9_amended_count :
    gen55.emitted.length = 49 ∧ gen55.ok = true ∧
    (gen55.emitted.map Layout.layout_info).Nodup :=
  ⟨gen55_eval.1, gen55_eval.2.2,
   (run_seeds_inv ⟨5, 5⟩ 5 15 (LayoutGenerator.get_init_placements ⟨5, 5⟩ 5) []).2.1⟩


/-- C10 witness: on the 1x7 all-occupied board, the horizontal window at
(0,1) is in bounds and fully occupied, and it is recorded as an equation. -/
theorem c10_witness :
    (EquationLayoutBriefBuilder.build_by_layout run17 7 1 5 =
        some [(1, win17 0), (2, win17 1), (3, win17 2)] ∧
      (EquationLayoutBriefBuilder.get_horizontal_range_coords ⟨0, 1⟩ 5 ⟨1, 7⟩ =
          some (win17 1) ∨
        EquationLayoutBriefBuilder.get_vertical_range_coords ⟨0, 1⟩ 5 ⟨1, 7⟩ =
          some (win17 1)) ∧
      EquationLayoutBriefBuilder.update_ok run17 7 (win17 1) = true) ∧
    ∃ id, (id, win17 1) ∈ [(1, win17 0), (2, win17 1), (3, win17 2)] :=
  ⟨⟨by decide, Or.inl (by decide), by decide⟩,
   c10_every_window_recorded.1 run17 7 1 [(1, win17 0), (2, win17 1), (3, win17 2)]
     ⟨0, 1⟩ (win17 1) (by decide) (Or.inl (by decide)) (by decide)⟩

end Crossmath
